import Mathlib

/-!
# River pollutant dispersion model: verification of the concentration evaluator

Shallow embedding of the calculation core of `src/pollutant.py` (a Gaussian-puff
concentration evaluator for an instantaneous point-mass release) over the reals,
together with proofs of the specified properties.

The source function `calculate_concentration_instantaneous` (lines 81-101):
  * clamps the time to `t_safe = max(t, 1e-6)`,
  * computes `term1 = M / ((4*pi*t_safe)**1.5 * sqrt(Dx*Dy*Dz))`,
  * computes the three Gaussian exponents with `t_safe` everywhere,
  * returns `np.where(t > 0, term1 * exp(...), 0.0)`.

The module-level sidebar validation (lines 64-67) stops the app when any of the
dispersion coefficients equals zero, before the evaluator can be called.
-/

open Real MeasureTheory

noncomputable section

namespace RiverPollutant

/-- Embedding of `calculate_concentration_instantaneous` from `src/pollutant.py`,
lines 81-101.  Scalar (single query point) instance of the vectorized numpy code:
the numpy version applies this expression elementwise to broadcast arrays. -/
def calculate_concentration_instantaneous
    (t x y z M u v w Dx Dy Dz x0 y0 z0 : ℝ) : ℝ :=
  -- t_safe = np.maximum(t, 1e-6)
  let t_safe := max t 1e-6
  -- term1 = M / ((4 * np.pi * t_safe)**1.5 * np.sqrt(Dx * Dy * Dz))
  let term1 := M / ((4 * Real.pi * t_safe) ^ (1.5 : ℝ) * Real.sqrt (Dx * Dy * Dz))
  -- exp_x, exp_y, exp_z
  let exp_x := -((x - x0 - u * t_safe) ^ 2) / (4 * Dx * t_safe)
  let exp_y := -((y - y0 - v * t_safe) ^ 2) / (4 * Dy * t_safe)
  let exp_z := -((z - z0 - w * t_safe) ^ 2) / (4 * Dz * t_safe)
  -- C = term1 * np.exp(exp_x + exp_y + exp_z); C = np.where(t > 0, C, 0.0)
  let C := term1 * Real.exp (exp_x + exp_y + exp_z)
  if t > 0 then C else 0

/-- Embedding of the module-level validation of `src/pollutant.py`, lines 64-67:
`if Dx == 0 or Dy == 0 or Dz == 0: ... st.stop()`.  Holds exactly when the app
stops (shows an error and never reaches the evaluator). -/
def dispersion_guard_stops (Dx Dy Dz : ℝ) : Prop :=
  Dx = 0 ∨ Dy = 0 ∨ Dz = 0

/-- The spec's formula block (section 4.1), written from the spec's words:
`prefactor = M / ((4*pi*t_safe)^1.5 * sqrt(Dx*Dy*Dz))`, the three exponent
terms, and `C_raw = prefactor * exp(exponent)`, with `t_safe = max(t, eps)`
and `eps = 1e-6`.  This is the unmasked raw value. -/
def spec_concentration (t x y z M u v w Dx Dy Dz x0 y0 z0 : ℝ) : ℝ :=
  let t_safe := max t 1e-6
  let prefactor := M / ((4 * Real.pi * t_safe) ^ (1.5 : ℝ) * Real.sqrt (Dx * Dy * Dz))
  let exponent := -((x - x0 - u * t_safe) ^ 2) / (4 * Dx * t_safe)
    + -((y - y0 - v * t_safe) ^ 2) / (4 * Dy * t_safe)
    + -((z - z0 - w * t_safe) ^ 2) / (4 * Dz * t_safe)
  prefactor * Real.exp exponent

/-- The clamped time is strictly positive. -/
theorem t_safe_pos (t : ℝ) : 0 < max t 1e-6 :=
  lt_max_of_lt_right (by norm_num)

/-- The denominator of the prefactor is strictly positive whenever the
dispersion coefficients are, so the division in `term1` is never by zero. -/
theorem denom_pos (t Dx Dy Dz : ℝ) (hDx : 0 < Dx) (hDy : 0 < Dy) (hDz : 0 < Dz) :
    0 < (4 * Real.pi * max t 1e-6) ^ (1.5 : ℝ) * Real.sqrt (Dx * Dy * Dz) := by
  have h1 : 0 < 4 * Real.pi * max t 1e-6 :=
    mul_pos (mul_pos (by norm_num) Real.pi_pos) (t_safe_pos t)
  have h2 : 0 < Dx * Dy * Dz := mul_pos (mul_pos hDx hDy) hDz
  exact mul_pos (Real.rpow_pos_of_pos h1 _) (Real.sqrt_pos.mpr h2)

end RiverPollutant

namespace RiverPollutant

/-- C2: for strictly positive dispersion coefficients and original (unclamped)
time `t ≤ 0`, the evaluator returns exactly 0, regardless of the spatial
coordinates and of the value the clamped computation produced. -/
theorem eval_eq_zero_of_nonpos_time
    (t x y z M u v w Dx Dy Dz x0 y0 z0 : ℝ)
    (hDx : 0 < Dx) (hDy : 0 < Dy) (hDz : 0 < Dz) (ht : t ≤ 0) :
    calculate_concentration_instantaneous t x y z M u v w Dx Dy Dz x0 y0 z0 = 0 := by
  simp only [calculate_concentration_instantaneous]
  rw [if_neg (not_lt.mpr ht)]

/-- Witness for C2: at `t = 0` exactly at the release point itself, the output
is 0 (not an unbounded value). -/
theorem eval_eq_zero_of_nonpos_time_witness :
    calculate_concentration_instantaneous 0 5 10 2.5 10 0.5 0 0 1 0.1 0.01 5 10 2.5 = 0 :=
  eval_eq_zero_of_nonpos_time 0 5 10 2.5 10 0.5 0 0 1 0.1 0.01 5 10 2.5
    (by norm_num) (by norm_num) (by norm_num) le_rfl

/-- C3: for `t > 0` and strictly positive dispersion coefficients, the
evaluator returns exactly the spec's formula
`M / ((4*pi*t_safe)^1.5 * sqrt(Dx*Dy*Dz)) * exp(...)` with
`t_safe = max(t, 1e-6)` used everywhere `t` appears. -/
theorem eval_eq_spec_formula_of_pos_time
    (t x y z M u v w Dx Dy Dz x0 y0 z0 : ℝ)
    (hDx : 0 < Dx) (hDy : 0 < Dy) (hDz : 0 < Dz) (ht : 0 < t) :
    calculate_concentration_instantaneous t x y z M u v w Dx Dy Dz x0 y0 z0 =
      spec_concentration t x y z M u v w Dx Dy Dz x0 y0 z0 := by
  simp only [calculate_concentration_instantaneous, spec_concentration]
  rw [if_pos ht]

/-- Witness for C3 at a concrete query point with `t > 0`. -/
theorem eval_eq_spec_formula_of_pos_time_witness :
    calculate_concentration_instantaneous 60 35 10 2.5 10 0.5 0 0 1 0.1 0.01 5 10 2.5 =
      spec_concentration 60 35 10 2.5 10 0.5 0 0 1 0.1 0.01 5 10 2.5 :=
  eval_eq_spec_formula_of_pos_time 60 35 10 2.5 10 0.5 0 0 1 0.1 0.01 5 10 2.5
    (by norm_num) (by norm_num) (by norm_num) (by norm_num)

end RiverPollutant

namespace RiverPollutant

/-- C1 counterexample: with `Dx = -1 ≤ 0`, the module-level check does not
stop (it only tests equality with zero), and the evaluator, which performs no
validation of its own, silently returns a numeric value (here `0`, at a
non-positive time) instead of failing with any error. -/
theorem guard_misses_negative_counterexample :
    ¬ dispersion_guard_stops (-1) 1 1 ∧
      calculate_concentration_instantaneous (-1) 0 0 0 1 0 0 0 (-1) 1 1 0 0 0 = 0 := by
  constructor
  · rintro (h | h | h) <;> norm_num at h
  · simp only [calculate_concentration_instantaneous]
    rw [if_neg (by norm_num)]

/-- C1 amended: non-positive dispersion coefficients are rejected at the
configuration boundary, not inside the evaluator.  The module-level check
stops the app exactly when a coefficient is zero; under the input widgets'
lower bound `0 ≤ Dx, Dy, Dz` this is equivalent to stopping exactly when some
coefficient is `≤ 0`, before the evaluator can ever be called. -/
theorem guard_stops_iff_nonpos_under_widget_bounds
    (Dx Dy Dz : ℝ) (hx : 0 ≤ Dx) (hy : 0 ≤ Dy) (hz : 0 ≤ Dz) :
    dispersion_guard_stops Dx Dy Dz ↔ (Dx ≤ 0 ∨ Dy ≤ 0 ∨ Dz ≤ 0) := by
  unfold dispersion_guard_stops
  constructor
  · rintro (h | h | h)
    · exact Or.inl h.le
    · exact Or.inr (Or.inl h.le)
    · exact Or.inr (Or.inr h.le)
  · rintro (h | h | h)
    · exact Or.inl (le_antisymm h hx)
    · exact Or.inr (Or.inl (le_antisymm h hy))
    · exact Or.inr (Or.inr (le_antisymm h hz))

/-- Witness for the amended C1 at the concrete boundary input `Dx = 0`. -/
theorem guard_stops_iff_nonpos_witness : dispersion_guard_stops 0 1 1 :=
  (guard_stops_iff_nonpos_under_widget_bounds 0 1 1 le_rfl (by norm_num)
    (by norm_num)).mpr (Or.inl le_rfl)

/-- C4 counterexample: with a negative mass `M = -1` (which the claim allows:
"any mass M") and positive dispersion coefficients, the evaluator's output at
the release point for `t = 1` is strictly negative, refuting non-negativity
for arbitrary `M`. -/
theorem eval_negative_for_negative_mass :
    calculate_concentration_instantaneous 1 0 0 0 (-1) 0 0 0 1 1 1 0 0 0 < 0 := by
  simp only [calculate_concentration_instantaneous]
  rw [if_pos (by norm_num : (1:ℝ) > 0)]
  apply mul_neg_of_neg_of_pos
  · exact div_neg_of_neg_of_pos (by norm_num)
      (denom_pos 1 1 1 1 one_pos one_pos one_pos)
  · exact Real.exp_pos _

/-- C4 amended: for non-negative mass and strictly positive dispersion
coefficients, the output is non-negative at every query point, and the
prefactor's denominator is strictly positive (no division by zero, hence no
infinite value, occurs). -/
theorem eval_nonneg_of_nonneg_mass
    (t x y z M u v w Dx Dy Dz x0 y0 z0 : ℝ)
    (hM : 0 ≤ M) (hDx : 0 < Dx) (hDy : 0 < Dy) (hDz : 0 < Dz) :
    0 ≤ calculate_concentration_instantaneous t x y z M u v w Dx Dy Dz x0 y0 z0 ∧
      0 < (4 * Real.pi * max t 1e-6) ^ (1.5 : ℝ) * Real.sqrt (Dx * Dy * Dz) := by
  refine ⟨?_, denom_pos t Dx Dy Dz hDx hDy hDz⟩
  simp only [calculate_concentration_instantaneous]
  split_ifs with h
  · exact mul_nonneg (div_nonneg hM (denom_pos t Dx Dy Dz hDx hDy hDz).le)
      (Real.exp_pos _).le
  · exact le_rfl

/-- Witness for the amended C4 at the spec's concrete scenario parameters. -/
theorem eval_nonneg_of_nonneg_mass_witness :
    0 ≤ calculate_concentration_instantaneous 60 0 0 0 10 0.5 0 0 1 0.1 0.01 5 10 2.5 ∧
      0 < (4 * Real.pi * max (60:ℝ) 1e-6) ^ (1.5 : ℝ) * Real.sqrt (1 * 0.1 * 0.01) :=
  eval_nonneg_of_nonneg_mass 60 0 0 0 10 0.5 0 0 1 0.1 0.01 5 10 2.5
    (by norm_num) (by norm_num) (by norm_num) (by norm_num)

/-- C8: the evaluator is homogeneous in the mass parameter: for every scalar
`c` and every input, evaluating with mass `c * M` yields exactly `c` times the
result of evaluating with mass `M`.  Both branches of the mask scale. -/
theorem eval_linear_in_mass
    (c t x y z M u v w Dx Dy Dz x0 y0 z0 : ℝ)
    (hDx : 0 < Dx) (hDy : 0 < Dy) (hDz : 0 < Dz) :
    calculate_concentration_instantaneous t x y z (c * M) u v w Dx Dy Dz x0 y0 z0 =
      c * calculate_concentration_instantaneous t x y z M u v w Dx Dy Dz x0 y0 z0 := by
  simp only [calculate_concentration_instantaneous]
  split_ifs with h
  · ring
  · ring

/-- Witness for C8 at a concrete input. -/
theorem eval_linear_in_mass_witness :
    calculate_concentration_instantaneous 60 35 10 2.5 (3 * 10) 0.5 0 0 1 0.1 0.01 5 10 2.5 =
      3 * calculate_concentration_instantaneous 60 35 10 2.5 10 0.5 0 0 1 0.1 0.01 5 10 2.5 :=
  eval_linear_in_mass 3 60 35 10 2.5 10 0.5 0 0 1 0.1 0.01 5 10 2.5
    (by norm_num) (by norm_num) (by norm_num)

/-- C10: for positive mass, strictly positive dispersion coefficients and
`t > 0`, the output is strictly positive at every spatial location, however
far from the release point (the Gaussian has unbounded support). -/
theorem eval_pos_of_pos_time
    (t x y z M u v w Dx Dy Dz x0 y0 z0 : ℝ)
    (hM : 0 < M) (hDx : 0 < Dx) (hDy : 0 < Dy) (hDz : 0 < Dz) (ht : 0 < t) :
    0 < calculate_concentration_instantaneous t x y z M u v w Dx Dy Dz x0 y0 z0 := by
  simp only [calculate_concentration_instantaneous]
  rw [if_pos ht]
  exact mul_pos (div_pos hM (denom_pos t Dx Dy Dz hDx hDy hDz)) (Real.exp_pos _)

/-- Witness for C10 at a concrete query point far from the release point. -/
theorem eval_pos_of_pos_time_witness :
    0 < calculate_concentration_instantaneous 60 1000 1000 1000 10 0.5 0 0 1 0.1 0.01 5 10 2.5 :=
  eval_pos_of_pos_time 60 1000 1000 1000 10 0.5 0 0 1 0.1 0.01 5 10 2.5
    (by norm_num) (by norm_num) (by norm_num) (by norm_num) (by norm_num)

end RiverPollutant

namespace RiverPollutant

/-- C5: for strictly positive dispersion coefficients and a near-zero but
positive time `0 < t ≤ 1e-6`, the evaluator does not mask to zero and returns
exactly the spec formula evaluated at the clamp floor `1e-6`; moreover the
clamped denominator is strictly positive, so no division by zero occurs. -/
theorem eval_near_zero_time_clamped
    (t x y z M u v w Dx Dy Dz x0 y0 z0 : ℝ)
    (hDx : 0 < Dx) (hDy : 0 < Dy) (hDz : 0 < Dz) (ht : 0 < t) (hte : t ≤ 1e-6) :
    calculate_concentration_instantaneous t x y z M u v w Dx Dy Dz x0 y0 z0 =
      spec_concentration 1e-6 x y z M u v w Dx Dy Dz x0 y0 z0 ∧
      0 < (4 * Real.pi * max t 1e-6) ^ (1.5 : ℝ) * Real.sqrt (Dx * Dy * Dz) := by
  refine ⟨?_, denom_pos t Dx Dy Dz hDx hDy hDz⟩
  simp only [calculate_concentration_instantaneous, spec_concentration]
  rw [if_pos ht, max_eq_right hte, max_self]

/-- Witness for C5 at the spec's example time `t = 1e-9`. -/
theorem eval_near_zero_time_clamped_witness :
    calculate_concentration_instantaneous 1e-9 5 10 2.5 10 0.5 0 0 1 0.1 0.01 5 10 2.5 =
      spec_concentration 1e-6 5 10 2.5 10 0.5 0 0 1 0.1 0.01 5 10 2.5 ∧
      0 < (4 * Real.pi * max (1e-9:ℝ) 1e-6) ^ (1.5 : ℝ) * Real.sqrt (1 * 0.1 * 0.01) :=
  eval_near_zero_time_clamped 1e-9 5 10 2.5 10 0.5 0 0 1 0.1 0.01 5 10 2.5
    (by norm_num) (by norm_num) (by norm_num) (by norm_num) (by norm_num)

/-- C9: the clamp also affects strictly positive times below the floor: for
every `t` with `0 < t ≤ 1e-6` the output equals the output at `t = 1e-6`
exactly (in particular it is constant on that interval and not masked to
zero, since the mask tests the unclamped `t > 0`). -/
theorem eval_constant_below_clamp_floor
    (t x y z M u v w Dx Dy Dz x0 y0 z0 : ℝ) (ht : 0 < t) (hte : t ≤ 1e-6) :
    calculate_concentration_instantaneous t x y z M u v w Dx Dy Dz x0 y0 z0 =
      calculate_concentration_instantaneous 1e-6 x y z M u v w Dx Dy Dz x0 y0 z0 := by
  simp only [calculate_concentration_instantaneous]
  rw [if_pos ht, if_pos (by norm_num : (1e-6:ℝ) > 0), max_eq_right hte, max_self]

/-- Witness for C9 at `t = 1e-7`. -/
theorem eval_constant_below_clamp_floor_witness :
    calculate_concentration_instantaneous 1e-7 0 0 0 10 0.5 0 0 1 0.1 0.01 5 10 2.5 =
      calculate_concentration_instantaneous 1e-6 0 0 0 10 0.5 0 0 1 0.1 0.01 5 10 2.5 :=
  eval_constant_below_clamp_floor 1e-7 0 0 0 10 0.5 0 0 1 0.1 0.01 5 10 2.5
    (by norm_num) (by norm_num)

/-- C6: with zero advection (`u = v = w = 0`), positive mass and positive
dispersion coefficients, at any fixed time `t1 > 0` the concentration at the
release point dominates the concentration at every other spatial point. -/
theorem peak_at_release_point
    (t1 x y z M Dx Dy Dz x0 y0 z0 : ℝ)
    (hM : 0 < M) (hDx : 0 < Dx) (hDy : 0 < Dy) (hDz : 0 < Dz) (ht : 0 < t1) :
    calculate_concentration_instantaneous t1 x y z M 0 0 0 Dx Dy Dz x0 y0 z0 ≤
      calculate_concentration_instantaneous t1 x0 y0 z0 M 0 0 0 Dx Dy Dz x0 y0 z0 := by
  simp only [calculate_concentration_instantaneous]
  rw [if_pos ht, if_pos ht]
  set ts := max t1 1e-6 with hts
  have hts0 : 0 < ts := t_safe_pos t1
  have hterm : 0 < M / ((4 * Real.pi * ts) ^ (1.5:ℝ) * Real.sqrt (Dx * Dy * Dz)) :=
    div_pos hM (denom_pos t1 Dx Dy Dz hDx hDy hDz)
  have h0 : -((x0 - x0 - 0 * ts) ^ 2) / (4 * Dx * ts)
      + -((y0 - y0 - 0 * ts) ^ 2) / (4 * Dy * ts)
      + -((z0 - z0 - 0 * ts) ^ 2) / (4 * Dz * ts) = 0 := by
    ring
  rw [h0, Real.exp_zero, mul_one]
  have hex : -((x - x0 - 0 * ts) ^ 2) / (4 * Dx * ts) ≤ 0 := by
    rw [neg_div]
    exact neg_nonpos.mpr (by positivity)
  have hey : -((y - y0 - 0 * ts) ^ 2) / (4 * Dy * ts) ≤ 0 := by
    rw [neg_div]
    exact neg_nonpos.mpr (by positivity)
  have hez : -((z - z0 - 0 * ts) ^ 2) / (4 * Dz * ts) ≤ 0 := by
    rw [neg_div]
    exact neg_nonpos.mpr (by positivity)
  have hexp : Real.exp (-((x - x0 - 0 * ts) ^ 2) / (4 * Dx * ts)
      + -((y - y0 - 0 * ts) ^ 2) / (4 * Dy * ts)
      + -((z - z0 - 0 * ts) ^ 2) / (4 * Dz * ts)) ≤ 1 := by
    rw [← Real.exp_zero]
    exact Real.exp_le_exp.mpr (by linarith)
  calc M / ((4 * Real.pi * ts) ^ (1.5:ℝ) * Real.sqrt (Dx * Dy * Dz))
        * Real.exp (-((x - x0 - 0 * ts) ^ 2) / (4 * Dx * ts)
          + -((y - y0 - 0 * ts) ^ 2) / (4 * Dy * ts)
          + -((z - z0 - 0 * ts) ^ 2) / (4 * Dz * ts))
      ≤ M / ((4 * Real.pi * ts) ^ (1.5:ℝ) * Real.sqrt (Dx * Dy * Dz)) * 1 :=
        mul_le_mul_of_nonneg_left hexp hterm.le
    _ = M / ((4 * Real.pi * ts) ^ (1.5:ℝ) * Real.sqrt (Dx * Dy * Dz)) := mul_one _

/-- Witness for C6 at a concrete off-peak point. -/
theorem peak_at_release_point_witness :
    calculate_concentration_instantaneous 60 0 0 0 10 0 0 0 1 0.1 0.01 5 10 2.5 ≤
      calculate_concentration_instantaneous 60 5 10 2.5 10 0 0 0 1 0.1 0.01 5 10 2.5 :=
  peak_at_release_point 60 0 0 0 10 1 0.1 0.01 5 10 2.5
    (by norm_num) (by norm_num) (by norm_num) (by norm_num) (by norm_num)

end RiverPollutant

namespace RiverPollutant

/-- One-dimensional shifted Gaussian integral, in the exact shape of the
evaluator's exponent terms: the integral over the line of
`exp(-(s - c - d)^2 / a)` is `sqrt (pi * a)`. -/
theorem integral_shifted_gauss_term (c d a : ℝ) :
    ∫ s : ℝ, Real.exp (-(s - c - d) ^ 2 / a) = Real.sqrt (Real.pi * a) := by
  have h : ∀ s : ℝ, -(s - c - d) ^ 2 / a = -(1/a) * (s - (c + d)) ^ 2 := fun s => by
    ring
  simp only [h]
  rw [show (∫ s : ℝ, Real.exp (-(1/a) * (s - (c + d)) ^ 2))
        = ∫ s : ℝ, Real.exp (-(1/a) * s ^ 2) from
      integral_sub_right_eq_self (fun s => Real.exp (-(1/a) * s ^ 2)) (c + d)]
  rw [integral_gaussian]
  congr 1
  rw [one_div, div_inv_eq_mul]

end RiverPollutant

namespace RiverPollutant

/-- C7: mass conservation.  For strictly positive dispersion coefficients and
any fixed time `t1` at or above the clamp floor, the iterated integral of the
evaluator's output over all of three-dimensional space equals the released
mass `M` exactly. -/
theorem mass_conservation
    (t1 M u v w Dx Dy Dz x0 y0 z0 : ℝ)
    (hDx : 0 < Dx) (hDy : 0 < Dy) (hDz : 0 < Dz) (ht : (1e-6:ℝ) ≤ t1) :
    (∫ x : ℝ, ∫ y : ℝ, ∫ z : ℝ,
        calculate_concentration_instantaneous t1 x y z M u v w Dx Dy Dz x0 y0 z0) = M := by
  have ht0 : (0:ℝ) < t1 := lt_of_lt_of_le (by norm_num) ht
  have hmax : max t1 1e-6 = t1 := max_eq_left ht
  have hpoint : ∀ x y z : ℝ,
      calculate_concentration_instantaneous t1 x y z M u v w Dx Dy Dz x0 y0 z0 =
        M / ((4 * Real.pi * t1) ^ (1.5:ℝ) * Real.sqrt (Dx * Dy * Dz))
          * Real.exp (-(x - x0 - u * t1) ^ 2 / (4 * Dx * t1))
          * Real.exp (-(y - y0 - v * t1) ^ 2 / (4 * Dy * t1))
          * Real.exp (-(z - z0 - w * t1) ^ 2 / (4 * Dz * t1)) := by
    intro x y z
    simp only [calculate_concentration_instantaneous, hmax]
    rw [if_pos ht0, Real.exp_add, Real.exp_add]
    ring
  have hz_int : ∀ x y : ℝ,
      (∫ z : ℝ,
          calculate_concentration_instantaneous t1 x y z M u v w Dx Dy Dz x0 y0 z0) =
        M / ((4 * Real.pi * t1) ^ (1.5:ℝ) * Real.sqrt (Dx * Dy * Dz))
          * Real.exp (-(x - x0 - u * t1) ^ 2 / (4 * Dx * t1))
          * Real.exp (-(y - y0 - v * t1) ^ 2 / (4 * Dy * t1))
          * Real.sqrt (Real.pi * (4 * Dz * t1)) := by
    intro x y
    simp only [hpoint]
    rw [integral_mul_left, integral_shifted_gauss_term z0 (w * t1) (4 * Dz * t1)]
  have hswap_y : ∀ x y : ℝ,
      M / ((4 * Real.pi * t1) ^ (1.5:ℝ) * Real.sqrt (Dx * Dy * Dz))
        * Real.exp (-(x - x0 - u * t1) ^ 2 / (4 * Dx * t1))
        * Real.exp (-(y - y0 - v * t1) ^ 2 / (4 * Dy * t1))
        * Real.sqrt (Real.pi * (4 * Dz * t1)) =
      (M / ((4 * Real.pi * t1) ^ (1.5:ℝ) * Real.sqrt (Dx * Dy * Dz))
        * Real.exp (-(x - x0 - u * t1) ^ 2 / (4 * Dx * t1))
        * Real.sqrt (Real.pi * (4 * Dz * t1)))
        * Real.exp (-(y - y0 - v * t1) ^ 2 / (4 * Dy * t1)) := fun x y => by
    ring
  have hy_int : ∀ x : ℝ,
      (∫ y : ℝ, ∫ z : ℝ,
          calculate_concentration_instantaneous t1 x y z M u v w Dx Dy Dz x0 y0 z0) =
        M / ((4 * Real.pi * t1) ^ (1.5:ℝ) * Real.sqrt (Dx * Dy * Dz))
          * Real.exp (-(x - x0 - u * t1) ^ 2 / (4 * Dx * t1))
          * Real.sqrt (Real.pi * (4 * Dz * t1))
          * Real.sqrt (Real.pi * (4 * Dy * t1)) := by
    intro x
    simp only [hz_int, hswap_y]
    rw [integral_mul_left, integral_shifted_gauss_term y0 (v * t1) (4 * Dy * t1)]
  have hswap_x : ∀ x : ℝ,
      M / ((4 * Real.pi * t1) ^ (1.5:ℝ) * Real.sqrt (Dx * Dy * Dz))
        * Real.exp (-(x - x0 - u * t1) ^ 2 / (4 * Dx * t1))
        * Real.sqrt (Real.pi * (4 * Dz * t1))
        * Real.sqrt (Real.pi * (4 * Dy * t1)) =
      (M / ((4 * Real.pi * t1) ^ (1.5:ℝ) * Real.sqrt (Dx * Dy * Dz))
        * Real.sqrt (Real.pi * (4 * Dz * t1))
        * Real.sqrt (Real.pi * (4 * Dy * t1)))
        * Real.exp (-(x - x0 - u * t1) ^ 2 / (4 * Dx * t1)) := fun x => by
    ring
  have hden : 0 < (4 * Real.pi * t1) ^ (1.5:ℝ) * Real.sqrt (Dx * Dy * Dz) := by
    have h := denom_pos t1 Dx Dy Dz hDx hDy hDz
    rwa [hmax] at h
  have hrpow : (4 * Real.pi * t1) ^ (1.5:ℝ) = Real.sqrt ((4 * Real.pi * t1) ^ (3:ℕ)) := by
    have ha : (0:ℝ) ≤ 4 * Real.pi * t1 := by positivity
    rw [Real.sqrt_eq_rpow, ← Real.rpow_natCast (4 * Real.pi * t1) 3, ← Real.rpow_mul ha]
    congr 1
    norm_num
  have hkey : Real.sqrt (Real.pi * (4 * Dz * t1)) * Real.sqrt (Real.pi * (4 * Dy * t1))
      * Real.sqrt (Real.pi * (4 * Dx * t1))
      = (4 * Real.pi * t1) ^ (1.5:ℝ) * Real.sqrt (Dx * Dy * Dz) := by
    have h1 : (0:ℝ) ≤ Real.pi * (4 * Dz * t1) := by positivity
    have h2 : (0:ℝ) ≤ Real.pi * (4 * Dz * t1) * (Real.pi * (4 * Dy * t1)) := by positivity
    have h3 : (0:ℝ) ≤ (4 * Real.pi * t1) ^ (3:ℕ) := by positivity
    rw [← Real.sqrt_mul h1, ← Real.sqrt_mul h2, hrpow, ← Real.sqrt_mul h3]
    congr 1
    ring
  calc (∫ x : ℝ, ∫ y : ℝ, ∫ z : ℝ,
          calculate_concentration_instantaneous t1 x y z M u v w Dx Dy Dz x0 y0 z0)
      = ∫ x : ℝ,
          (M / ((4 * Real.pi * t1) ^ (1.5:ℝ) * Real.sqrt (Dx * Dy * Dz))
            * Real.sqrt (Real.pi * (4 * Dz * t1))
            * Real.sqrt (Real.pi * (4 * Dy * t1)))
            * Real.exp (-(x - x0 - u * t1) ^ 2 / (4 * Dx * t1)) := by
        simp only [hy_int, hswap_x]
    _ = (M / ((4 * Real.pi * t1) ^ (1.5:ℝ) * Real.sqrt (Dx * Dy * Dz))
          * Real.sqrt (Real.pi * (4 * Dz * t1))
          * Real.sqrt (Real.pi * (4 * Dy * t1)))
          * Real.sqrt (Real.pi * (4 * Dx * t1)) := by
        rw [integral_mul_left, integral_shifted_gauss_term x0 (u * t1) (4 * Dx * t1)]
    _ = M / ((4 * Real.pi * t1) ^ (1.5:ℝ) * Real.sqrt (Dx * Dy * Dz))
          * (Real.sqrt (Real.pi * (4 * Dz * t1)) * Real.sqrt (Real.pi * (4 * Dy * t1))
            * Real.sqrt (Real.pi * (4 * Dx * t1))) := by
        ring
    _ = M := by
        rw [hkey, div_mul_cancel₀ M hden.ne']

/-- Witness for C7 at the spec's concrete scenario parameters. -/
theorem mass_conservation_witness :
    (∫ x : ℝ, ∫ y : ℝ, ∫ z : ℝ,
        calculate_concentration_instantaneous 60 x y z 10 0.5 0 0 1 0.1 0.01 5 10 2.5) = 10 :=
  mass_conservation 60 10 0.5 0 0 1 0.1 0.01 5 10 2.5
    (by norm_num) (by norm_num) (by norm_num) (by norm_num)

end RiverPollutant
